import Mathlib

/-!
Verification development for the git-activity-dashboard repository.

The Python sources (`classifier.py`, `analyzer.py`) are shallowly embedded
below: pure functions become Lean functions, the commit-log parsing loop
becomes a fold over an explicit parser state, machine integers become
`Nat`/`Int`, Python `dict`s become association lists in insertion order,
Python `set`s become duplicate-free lists, `datetime` values become a
pair of a naive wall-clock value (microseconds since the epoch, `Int`)
and an optional UTC-offset (seconds, `Option Int`).  External effects
(the git subprocess, the filesystem, `datetime.now`) are passed in as
explicit parameters.  Non-ASCII case folding and non-ASCII digits are
modelled by their ASCII behaviour.
-/

set_option maxRecDepth 20000

/-- Python whitespace characters recognised by `str.strip()` (ASCII subset). -/
def isPyWs (c : Char) : Bool :=
  c = ' ' || c = '\t' || c = '\n' || c = '\x0d' || c = '\x0b' || c = '\x0c'

/-- Embedding of Python `str.strip()`: drop leading and trailing whitespace. -/
def pyStrip (s : String) : String :=
  ⟨((s.data.dropWhile isPyWs).reverse.dropWhile isPyWs).reverse⟩

/-- Embedding of Python `str.lower()` (ASCII case folding). -/
def pyLower (s : String) : String :=
  ⟨s.data.map Char.toLower⟩

/-- Check whether `needle` occurs at the head of `hay`. -/
def leadsWith : List Char → List Char → Bool
  | [], _ => true
  | _ :: _, [] => false
  | a :: as, b :: bs => a = b && leadsWith as bs

/-- Embedding of the Python substring test `needle in hay`. -/
def containsSub (needle : List Char) : List Char → Bool
  | [] => leadsWith needle []
  | c :: t => leadsWith needle (c :: t) || containsSub needle t

/-- Substring test on strings, `substrB pat s` means `pat in s` in Python. -/
def substrB (pat : String) (s : String) : Bool :=
  containsSub pat.data s.data

/-- Index of the last occurrence of `c` in `l`, counting from `i`. -/
def lastIdxFrom (c : Char) : List Char → Nat → Option Nat
  | [], _ => none
  | x :: xs, i =>
    match lastIdxFrom c xs (i + 1) with
    | some j => some j
    | none => if x = c then some i else none

/-- Index of the last occurrence of `c` in `l`. -/
def lastIdx (c : Char) (l : List Char) : Option Nat :=
  lastIdxFrom c l 0

/-- Embedding of `os.path.splitext(p)[1]` (POSIX rules): the extension is the
suffix from the last dot, provided the basename has a non-dot character
before that dot; otherwise the empty string. -/
def splitextExt (p : List Char) : List Char :=
  match lastIdx '.' p with
  | none => []
  | some di =>
    let start : Nat :=
      match lastIdx '/' p with
      | none => 0
      | some si => si + 1
    let dotAfterSep : Bool :=
      match lastIdx '/' p with
      | none => true
      | some si => decide (si < di)
    if dotAfterSep && ((p.drop start).take (di - start)).any (fun c => c ≠ '.') then
      p.drop di
    else []

namespace Dashboard

/-- The ContributionType enumeration from classifier.py. -/
inductive ContributionType where
  | PRODUCTION_CODE
  | TESTS
  | DOCUMENTATION
  | SPECS_CONFIG
  | INFRASTRUCTURE
  | STYLING
  | OTHER
deriving DecidableEq, Repr, Fintype

/-- The FileClassification dataclass from classifier.py. -/
structure FileClassification where
  file_path : String
  contribution_type : ContributionType
  language : Option String
  lines_added : Nat
  lines_removed : Nat
deriving DecidableEq, Repr

/-- FileClassifier.TEST_PATTERNS. -/
def TEST_PATTERNS : List String :=
  ["test_", "_test.", ".test.", "tests/", "/test/", "spec_", "_spec.",
   ".spec.", "specs/", "/spec/", "__tests__/", ".tests.", "testing/",
   "unittest", "pytest", "jest", "mocha", "cypress/", "e2e/"]

/-- FileClassifier.DOC_PATTERNS. -/
def DOC_PATTERNS : List String :=
  ["readme", "changelog", "contributing", "license", "authors",
   "docs/", "/doc/", "documentation/", ".md", ".rst", ".txt",
   "wiki/", "guide", "manual", "api-docs/"]

/-- FileClassifier.DOC_EXTENSIONS. -/
def DOC_EXTENSIONS : List String :=
  [".md", ".rst", ".txt", ".adoc", ".wiki"]

/-- FileClassifier.SPEC_CONFIG_PATTERNS (verbatim, including the entries
containing upper-case letters, which can never match a lower-cased path). -/
def SPEC_CONFIG_PATTERNS : List String :=
  ["package.json", "tsconfig", "webpack", "babel", "eslint", "prettier",
   ".yaml", ".yml", ".json", ".toml", ".ini", ".cfg", ".conf",
   "openapi", "swagger", "schema", ".env", "config/", "/config",
   "settings", ".editorconfig", ".gitignore", ".dockerignore",
   "pyproject.toml", "setup.py", "setup.cfg", "requirements",
   "Gemfile", "Cargo.toml", "go.mod", "pom.xml", "build.gradle",
   ".github/", ".gitlab-ci", "azure-pipelines", "Jenkinsfile",
   ".travis", "circle.yml", "bitbucket-pipelines"]

/-- FileClassifier.INFRA_PATTERNS. -/
def INFRA_PATTERNS : List String :=
  ["dockerfile", "docker-compose", "kubernetes/", "k8s/", "helm/",
   "terraform/", ".tf", "ansible/", "puppet/", "chef/",
   "cloudformation", "pulumi/", "vagrant", "makefile", "cmake",
   "deploy/", "deployment/", "infra/", "infrastructure/",
   "scripts/deploy", "scripts/build", ".sh", "nginx", "apache"]

/-- FileClassifier.STYLE_PATTERNS. -/
def STYLE_PATTERNS : List String :=
  [".css", ".scss", ".sass", ".less", ".styl", ".styled.",
   "styles/", "/style/", "theme", ".tailwind"]

/-- FileClassifier.LANGUAGE_MAP as an association list. -/
def LANGUAGE_MAP : List (String × String) :=
  [(".py", "Python"), (".js", "JavaScript"), (".ts", "TypeScript"),
   (".tsx", "TypeScript (React)"), (".jsx", "JavaScript (React)"),
   (".cs", "C#"), (".java", "Java"), (".go", "Go"), (".rs", "Rust"),
   (".rb", "Ruby"), (".php", "PHP"), (".swift", "Swift"), (".kt", "Kotlin"),
   (".scala", "Scala"), (".c", "C"), (".cpp", "C++"), (".h", "C/C++ Header"),
   (".hpp", "C++ Header"), (".vue", "Vue"), (".svelte", "Svelte"),
   (".html", "HTML"), (".sql", "SQL"), (".r", "R"),
   (".m", "MATLAB/Objective-C"), (".pl", "Perl"), (".lua", "Lua"),
   (".dart", "Dart"), (".elm", "Elm"), (".ex", "Elixir"), (".exs", "Elixir"),
   (".erl", "Erlang"), (".hs", "Haskell"), (".clj", "Clojure"),
   (".fs", "F#"), (".fsx", "F#")]

/-- Lower-cased extension of a path, as computed on line 120 of classifier.py. -/
def extOf (file_path : String) : String :=
  pyLower ⟨splitextExt file_path.data⟩

/-- Language inferred from the extension (`LANGUAGE_MAP.get(ext)`). -/
def languageOf (file_path : String) : Option String :=
  List.lookup (extOf file_path) LANGUAGE_MAP

/-- Does the lower-cased path match any test pattern (rule 1 guard)? -/
def testMatch (file_lower : String) : Bool :=
  TEST_PATTERNS.any (fun p => substrB p file_lower)

/-- Rule 2 guard: documentation extension or documentation pattern. -/
def docMatch (ext : String) (file_lower : String) : Bool :=
  decide (ext ∈ DOC_EXTENSIONS) || DOC_PATTERNS.any (fun p => substrB p file_lower)

/-- Rule 3 guard: infrastructure pattern. -/
def infraMatch (file_lower : String) : Bool :=
  INFRA_PATTERNS.any (fun p => substrB p file_lower)

/-- Rule 4 guard: specs/config pattern. -/
def specConfigMatch (file_lower : String) : Bool :=
  SPEC_CONFIG_PATTERNS.any (fun p => substrB p file_lower)

/-- Rule 5 guard: styling pattern. -/
def styleMatch (file_lower : String) : Bool :=
  STYLE_PATTERNS.any (fun p => substrB p file_lower)

/-- Embedding of FileClassifier.classify (classifier.py lines 117-192). -/
def classify (file_path : String) (lines_added : Nat := 0) (lines_removed : Nat := 0) :
    FileClassification :=
  let file_lower := pyLower file_path
  let ext := extOf file_path
  let language := List.lookup ext LANGUAGE_MAP
  if testMatch file_lower then
    ⟨file_path, .TESTS, language, lines_added, lines_removed⟩
  else if docMatch ext file_lower then
    ⟨file_path, .DOCUMENTATION, some "Documentation", lines_added, lines_removed⟩
  else if infraMatch file_lower then
    ⟨file_path, .INFRASTRUCTURE, some (language.getD "Infrastructure"),
      lines_added, lines_removed⟩
  else if specConfigMatch file_lower then
    ⟨file_path, .SPECS_CONFIG, some "Configuration", lines_added, lines_removed⟩
  else if styleMatch file_lower then
    ⟨file_path, .STYLING, some "CSS/Styling", lines_added, lines_removed⟩
  else
    match language with
    | some l => ⟨file_path, .PRODUCTION_CODE, some l, lines_added, lines_removed⟩
    | none => ⟨file_path, .OTHER, none, lines_added, lines_removed⟩

/-- Embedding of Python `datetime`: `value` is the naive wall-clock reading in
microseconds since the epoch, `tz` the UTC offset in seconds (`none` = naive). -/
structure PyDT where
  value : Int
  tz : Option Int
deriving DecidableEq, Repr

/-- Instant on the UTC timeline used by Python's aware-datetime comparison;
a naive datetime is compared by its wall-clock value (offset 0). -/
def PyDT.instant (d : PyDT) : Int :=
  d.value - 1000000 * d.tz.getD 0

/-- Microseconds in one day. -/
def usPerDay : Int := 86400000000

/-- Embedding of `d.replace(hour=0, minute=0, second=0, microsecond=0)`. -/
def dayStart (d : PyDT) : PyDT :=
  ⟨d.value - d.value.emod usPerDay, d.tz⟩

/-- Python `weekday()` (Monday = 0) of the wall-clock day; 1970-01-01 was a
Thursday (weekday 3). -/
def PyDT.weekday (d : PyDT) : Int :=
  ((d.value.fdiv usPerDay) + 3).emod 7

/-- The CommitInfo dataclass from analyzer.py. -/
structure CommitInfo where
  hash : String
  author : String
  email : String
  date : PyDT
  message : String
  files_changed : Nat
  lines_added : Nat
  lines_removed : Nat
  file_classifications : List FileClassification
deriving DecidableEq, Repr

/-- The RepoStats dataclass from analyzer.py.  The `languages` and
`contribution_types` dicts are association lists in insertion order. -/
structure RepoStats where
  name : String
  path : String
  total_commits : Nat
  total_lines_added : Nat
  total_lines_removed : Nat
  total_files_changed : Nat
  first_commit_date : Option PyDT
  last_commit_date : Option PyDT
  languages : List (String × Nat)
  contribution_types : List (ContributionType × Nat)
  commits : List CommitInfo
  technologies : List String
  description : String
deriving DecidableEq, Repr

/-- The ActivitySummary dataclass from analyzer.py. -/
structure ActivitySummary where
  period_start : PyDT
  period_end : PyDT
  period_label : String
  commits : Nat
  lines_added : Nat
  lines_removed : Nat
  files_changed : Nat
  repos_active : Nat
  contribution_breakdown : List (ContributionType × Nat)
  language_breakdown : List (String × Nat)
deriving DecidableEq, Repr

/-- Add `v` to the entry of key `k` in an association list (Python
`defaultdict` accumulation: update the existing entry, else append). -/
def bump {α : Type} [DecidableEq α] : List (α × Nat) → α → Nat → List (α × Nat)
  | [], k, v => [(k, v)]
  | kv :: rest, k, v =>
    if kv.1 = k then (kv.1, kv.2 + v) :: rest else kv :: bump rest k v

/-- Sum of the values of an association list (`sum(d.values())`). -/
def sumVals {α : Type} (m : List (α × Nat)) : Nat :=
  (m.map (fun kv => kv.2)).sum

/-- Python `set.add` on a duplicate-free list representation. -/
def sinsert (s : List String) (n : String) : List String :=
  if n ∈ s then s else n :: s

/-! ### The commit-log parsing loop (analyzer.py lines 198-251) -/

/-- Split a character list at its first `'|'`, if any. -/
def breakPipe : List Char → Option (List Char × List Char)
  | [] => none
  | c :: cs =>
    if c = '|' then some ([], cs)
    else
      match breakPipe cs with
      | some (a, b) => some (c :: a, b)
      | none => none

/-- Embedding of Python `line.split('|', n)`: split on `'|'` at most `n` times. -/
def splitPipe : Nat → List Char → List (List Char)
  | 0, l => [l]
  | n + 1, l =>
    match breakPipe l with
    | none => [l]
    | some (pre, post) => pre :: splitPipe n post

/-- Split a character list at its first tab, if any. -/
def breakTab : List Char → Option (List Char × List Char)
  | [] => none
  | c :: cs =>
    if c = '\t' then some ([], cs)
    else
      match breakTab cs with
      | some (a, b) => some (c :: a, b)
      | none => none

/-- Numeric value of a decimal digit string. -/
def digitsToNat (g : List Char) : Nat :=
  g.foldl (fun n c => 10 * n + (c.toNat - 48)) 0

/-- One numstat group `(\d+|-)`, already converted as the code does
(`0 if group == '-' else int(group)`); `none` when the regex group fails. -/
def statNum (g : List Char) : Option Nat :=
  if g = ['-'] then some 0
  else if g ≠ [] && g.all Char.isDigit then some (digitsToNat g) else none

/-- Embedding of `re.match(r'^(\d+|-)\t(\d+|-)\t(.+)$', line)` combined with
the dash-to-zero conversion: yields (added, removed, path). -/
def parseNumstat (l : List Char) : Option (Nat × Nat × List Char) :=
  match breakTab l with
  | none => none
  | some (g1, rest) =>
    match breakTab rest with
    | none => none
    | some (g2, path) =>
      match statNum g1, statNum g2 with
      | some a, some r => if path ≠ [] then some (a, r, path) else none
      | _, _ => none

/-- State of the parsing loop: the open commit (if any), the emitted commits,
and the two accumulation dicts. -/
structure ParseState where
  current : Option CommitInfo
  commits : List CommitInfo
  langs : List (String × Nat)
  ctypes : List (ContributionType × Nat)
deriving DecidableEq, Repr

/-- Initial parser state. -/
def initParseState : ParseState := ⟨none, [], [], []⟩

/-- Build a CommitInfo from the five header fields (analyzer.py lines 216-227).
`pd` embeds `datetime.fromisoformat(s.replace('Z', '+00:00'))` with the
current-time fallback on a parse failure. -/
def mkCommit (pd : String → PyDT) (parts : List (List Char)) : CommitInfo :=
  { hash := ⟨parts.getD 0 []⟩
    author := ⟨parts.getD 1 []⟩
    email := ⟨parts.getD 2 []⟩
    date := pd ⟨parts.getD 3 []⟩
    message := ⟨parts.getD 4 []⟩
    files_changed := 0
    lines_added := 0
    lines_removed := 0
    file_classifications := [] }

/-- The numstat half of the loop body (analyzer.py lines 230-247): attach the
stat line to the open commit, if any; otherwise discard the line. -/
def statStep (st : ParseState) (l : List Char) : ParseState :=
  match parseNumstat l, st.current with
  | some (added, removed, path), some c =>
    let classification := classify ⟨path⟩ added removed
    let c' : CommitInfo :=
      { c with
        file_classifications := c.file_classifications ++ [classification]
        lines_added := c.lines_added + added
        lines_removed := c.lines_removed + removed
        files_changed := c.files_changed + 1 }
    let langs' :=
      match classification.language with
      | some lg => bump st.langs lg (added + removed)
      | none => st.langs
    { st with
      current := some c'
      langs := langs'
      ctypes := bump st.ctypes classification.contribution_type (added + removed) }
  | _, _ => st

/-- One iteration of the parsing loop (analyzer.py lines 203-247). -/
def step (pd : String → PyDT) (st : ParseState) (raw : String) : ParseState :=
  let line := pyStrip raw
  if line.data = [] then st
  else if '|' ∈ line.data ∧ 4 ≤ line.data.count '|' then
    let parts := splitPipe 4 line.data
    if parts.length = 5 then
      { st with
        commits := st.commits ++ st.current.toList
        current := some (mkCommit pd parts) }
    else statStep st line.data
  else statStep st line.data

/-- Run the loop over the whole log output and emit the still-open commit
(analyzer.py lines 203-251). -/
def parseOutput (pd : String → PyDT) (output : String) : ParseState :=
  let st := (output.splitOn "\n").foldl (step pd) initParseState
  { st with commits := st.commits ++ st.current.toList, current := none }

/-- Totals-and-stats construction after parsing (analyzer.py lines 253-266). -/
def buildStats (name path : String) (pd : String → PyDT) (output : String) :
    RepoStats :=
  let st := parseOutput pd output
  let commits := st.commits
  { name := name
    path := path
    total_commits := commits.length
    total_lines_added := commits.foldl (fun acc c => acc + c.lines_added) 0
    total_lines_removed := commits.foldl (fun acc c => acc + c.lines_removed) 0
    total_files_changed := commits.foldl (fun acc c => acc + c.files_changed) 0
    first_commit_date := (commits.map (fun c => c.date)).foldl
      (fun acc d => match acc with
        | none => some d
        | some m => some (if d.instant < m.instant then d else m)) none
    last_commit_date := (commits.map (fun c => c.date)).foldl
      (fun acc d => match acc with
        | none => some d
        | some m => some (if m.instant < d.instant then d else m)) none
    languages := st.langs
    contribution_types := st.ctypes
    commits := commits
    technologies := []
    description := "" }

/-- Environment of one `analyze_repo` call: what the filesystem and the git
subprocess returned.  `log_success` is false when git exits non-zero, is
missing, or times out (analyzer.py lines 79-91). -/
structure RepoEnv where
  has_git_dir : Bool
  description : String
  technologies : List String
  log_success : Bool
  log_output : String

/-- Embedding of GitAnalyzer.analyze_repo (analyzer.py lines 170-269) as a
transformer of the analyzer's `_repos` collection. -/
def analyze_repo (env : RepoEnv) (pd : String → PyDT) (name path : String)
    (repos : List RepoStats) : Option RepoStats × List RepoStats :=
  if env.has_git_dir = false then (none, repos)
  else if env.log_success = false then (none, repos)
  else
    let s :=
      { buildStats name path pd env.log_output with
        description := env.description
        technologies := env.technologies }
    (some s, repos ++ [s])

/-! ### Activity periods (analyzer.py lines 303-446) -/

/-- Timezone normalization applied to each commit date (analyzer.py lines
354-357): a naive commit timestamp adopts the period's timezone. -/
def normTz (c : PyDT) (tz : Option Int) : PyDT :=
  if c.tz = none then ⟨c.value, tz⟩ else c

/-- Period membership test `start <= commit_date <= end` after normalization. -/
def inPeriod (start e : PyDT) (c : PyDT) : Bool :=
  let cd := normTz c start.tz
  decide (start.instant ≤ cd.instant) && decide (cd.instant ≤ e.instant)

/-- Loop body of get_activity_summary (analyzer.py lines 352-373); the second
component carries the `active_repos` set. -/
def summaryStep (start e : PyDT) (rname : String)
    (acc : ActivitySummary × List String) (c : CommitInfo) :
    ActivitySummary × List String :=
  if inPeriod start e c.date then
    ({ acc.1 with
       commits := acc.1.commits + 1
       lines_added := acc.1.lines_added + c.lines_added
       lines_removed := acc.1.lines_removed + c.lines_removed
       files_changed := acc.1.files_changed + c.files_changed
       contribution_breakdown := c.file_classifications.foldl
         (fun m f => bump m f.contribution_type (f.lines_added + f.lines_removed))
         acc.1.contribution_breakdown
       language_breakdown := c.file_classifications.foldl
         (fun m f => match f.language with
           | some lg => bump m lg (f.lines_added + f.lines_removed)
           | none => m)
         acc.1.language_breakdown },
     sinsert acc.2 rname)
  else acc

/-- Fresh summary for a period. -/
def initSummary (start e : PyDT) (label : String) : ActivitySummary :=
  ⟨start, e, label, 0, 0, 0, 0, 0, [], []⟩

/-- Embedding of GitAnalyzer.get_activity_summary (analyzer.py lines 342-379)
given the already-computed period bounds. -/
def get_activity_summary (start e : PyDT) (label : String)
    (repos : List RepoStats) : ActivitySummary :=
  let p := repos.foldl
    (fun acc r => r.commits.foldl (summaryStep start e r.name) acc)
    (initSummary start e label, [])
  { p.1 with repos_active := p.2.length }

/-- Loop body of one daily bucket (analyzer.py lines 397-406): only the commit
count and the line deltas are accumulated. -/
def dayStep (start e : PyDT) (s : ActivitySummary) (c : CommitInfo) :
    ActivitySummary :=
  if inPeriod start e c.date then
    { s with
      commits := s.commits + 1
      lines_added := s.lines_added + c.lines_added
      lines_removed := s.lines_removed + c.lines_removed }
  else s

/-- One daily bucket. -/
def dayBucket (start e : PyDT) (label : String) (repos : List RepoStats) :
    ActivitySummary :=
  repos.foldl (fun s r => r.commits.foldl (dayStep start e) s)
    (initSummary start e label)

/-- Embedding of GitAnalyzer.get_daily_activity (analyzer.py lines 381-410).
`fmt` embeds `strftime('%A, %b %d')`; `now` embeds
`datetime.now().astimezone()`. -/
def get_daily_activity (fmt : PyDT → String) (now : PyDT)
    (repos : List RepoStats) (days : Nat) : List ActivitySummary :=
  (List.range days).map (fun (i : Nat) =>
    let day : PyDT := ⟨now.value - (i : Int) * usPerDay, now.tz⟩
    let start := dayStart day
    let e : PyDT := ⟨start.value + (usPerDay - 1), start.tz⟩
    dayBucket start e (fmt day) repos)

/-- Loop body of one weekly bucket (analyzer.py lines 430-441): commit count,
line deltas, file count and the active-repo set are accumulated. -/
def weekStep (start e : PyDT) (rname : String)
    (acc : ActivitySummary × List String) (c : CommitInfo) :
    ActivitySummary × List String :=
  if inPeriod start e c.date then
    ({ acc.1 with
       commits := acc.1.commits + 1
       lines_added := acc.1.lines_added + c.lines_added
       lines_removed := acc.1.lines_removed + c.lines_removed
       files_changed := acc.1.files_changed + c.files_changed },
     sinsert acc.2 rname)
  else acc

/-- One weekly bucket. -/
def weekBucket (start e : PyDT) (label : String) (repos : List RepoStats) :
    ActivitySummary :=
  let p := repos.foldl
    (fun acc r => r.commits.foldl (weekStep start e r.name) acc)
    (initSummary start e label, [])
  { p.1 with repos_active := p.2.length }

/-- Embedding of GitAnalyzer.get_weekly_activity (analyzer.py lines 412-446). -/
def get_weekly_activity (fmt : PyDT → String) (now : PyDT)
    (repos : List RepoStats) (weeks : Nat) : List ActivitySummary :=
  (List.range weeks).map (fun (i : Nat) =>
    let ws := dayStart
      ⟨now.value - (now.weekday + 7 * (i : Int)) * usPerDay, now.tz⟩
    let we : PyDT := ⟨ws.value + 604799000000, ws.tz⟩
    weekBucket ws we (fmt ws) repos)

/-! ### Cross-repository aggregation (analyzer.py lines 453-489) -/

/-- Result dict of get_total_stats. -/
structure TotalStats where
  total_repos : Nat
  total_commits : Nat
  total_lines_added : Nat
  total_lines_removed : Nat
  total_lines_changed : Nat
  total_files_changed : Nat
  languages : List (String × Nat)
  contribution_types : List (ContributionType × Nat)
  contribution_percentages : List (ContributionType × Rat)
deriving DecidableEq, Repr

/-- Round a rational to one decimal place (Python `round(x, 1)`, with the
float value modelled as the exact rational). -/
def roundTenths (q : Rat) : Rat :=
  (round (10 * q) : Int) / 10

/-- Cross-repository merge of the `languages` dicts (analyzer.py 461-464). -/
def mergeLangs (repos : List RepoStats) : List (String × Nat) :=
  repos.foldl (fun m r => r.languages.foldl (fun m kv => bump m kv.1 kv.2) m) []

/-- Cross-repository merge of the `contribution_types` dicts (467-470). -/
def mergeCT (repos : List RepoStats) : List (ContributionType × Nat) :=
  repos.foldl
    (fun m r => r.contribution_types.foldl (fun m kv => bump m kv.1 kv.2) m) []

/-- Embedding of GitAnalyzer.get_total_stats (analyzer.py lines 453-489). -/
def get_total_stats (repos : List RepoStats) : TotalStats :=
  let all_languages := mergeLangs repos
  let all_contribution_types := mergeCT repos
  let total_lines := sumVals all_contribution_types
  let contribution_percentages :=
    if 0 < total_lines then
      all_contribution_types.map
        (fun kv => (kv.1, roundTenths ((kv.2 : Rat) / (total_lines : Rat) * 100)))
    else []
  { total_repos := repos.length
    total_commits := (repos.map (fun r => r.total_commits)).sum
    total_lines_added := (repos.map (fun r => r.total_lines_added)).sum
    total_lines_removed := (repos.map (fun r => r.total_lines_removed)).sum
    total_lines_changed := (repos.map (fun r => r.total_lines_added)).sum +
      (repos.map (fun r => r.total_lines_removed)).sum
    total_files_changed := (repos.map (fun r => r.total_files_changed)).sum
    languages := all_languages
    contribution_types := all_contribution_types
    contribution_percentages := contribution_percentages }

/-! ### Auxiliary definitions used by theorem statements and witnesses -/

/-- Line-churn of one commit. -/
def commitDelta (c : CommitInfo) : Nat :=
  c.lines_added + c.lines_removed

/-- Line-churn of the open commit, 0 when none is open. -/
def curDelta : Option CommitInfo → Nat
  | none => 0
  | some c => commitDelta c

/-- Concrete stand-in for the date parser, used in concrete evaluations. -/
def pdZero : String → PyDT := fun _ => ⟨0, some 0⟩

/-- A concrete open commit for concrete evaluations of the parsing loop. -/
def demoOpenCommit : CommitInfo :=
  ⟨"h0", "A", "a@x", ⟨0, some 0⟩, "m", 0, 0, 0, []⟩

/-- Parser state holding one open commit. -/
def demoOpenState : ParseState :=
  ⟨some demoOpenCommit, [], [], []⟩

/-- Concrete `datetime.now().astimezone()`: noon UTC of epoch day 2. -/
def demoNow : PyDT := ⟨216000000000, some 0⟩

/-- A concrete commit: 1am UTC of epoch day 2, 5 added, 2 removed, 3 files. -/
def demoCommit : CommitInfo :=
  ⟨"c1", "A", "a@x", ⟨176400000000, some 0⟩, "m", 3, 5, 2, []⟩

/-- A concrete repository holding `demoCommit`. -/
def demoRepo : RepoStats :=
  ⟨"r", "/r", 1, 5, 2, 3, some ⟨176400000000, some 0⟩, some ⟨176400000000, some 0⟩,
   [], [], [demoCommit], [], ""⟩

/-- A concrete repository with a non-empty contribution_types dict, as the
spec's end-to-end scenario produces. -/
def demoRepoCT : RepoStats :=
  { demoRepo with
    contribution_types :=
      [(ContributionType.PRODUCTION_CODE, 10), (ContributionType.TESTS, 5),
       (ContributionType.DOCUMENTATION, 3)]
    languages := [("Python", 15), ("Documentation", 3)] }

/-- The daily bucket of epoch day 2 (as produced for `demoNow`, index 0). -/
def demoBucket : ActivitySummary :=
  dayBucket ⟨172800000000, some 0⟩ ⟨259199999999, some 0⟩ "" [demoRepo]

/-- The weekly bucket containing epoch day 2 (as produced for `demoNow`,
index 0: `demoNow` has weekday 5, so the week starts at epoch day -3). -/
def demoWeekBucket : ActivitySummary :=
  weekBucket ⟨-259200000000, some 0⟩ ⟨345599000000, some 0⟩ "" [demoRepo]

end Dashboard


namespace Dashboard

/-- C10: classify preserves its inputs: for every file path and every pair of
line counts (a, r), the returned FileClassification carries that same path,
a as lines_added and r as lines_removed, whichever category rule fires. -/
theorem classify_preserves_inputs (p : String) (a r : Nat) :
    (classify p a r).file_path = p ∧ (classify p a r).lines_added = a ∧
    (classify p a r).lines_removed = r := by
  refine ⟨?_, ?_, ?_⟩ <;>
    (unfold classify; dsimp only; repeat' split) <;> rfl

/-- C3: a file path matching at least one test pattern and at least one
spec/config pattern classifies as TESTS, never SPECS_CONFIG: rule 1 is
evaluated before rule 4 in the fixed rule order. -/
theorem classify_tests_beat_specs_config (p : String) (a r : Nat)
    (ht : testMatch (pyLower p) = true)
    (_hc : specConfigMatch (pyLower p) = true) :
    (classify p a r).contribution_type = ContributionType.TESTS ∧
    (classify p a r).contribution_type ≠ ContributionType.SPECS_CONFIG := by
  unfold classify
  simp [ht]

/-- Witness for C3 at the concrete path tests/config/app.yaml, which matches
the test pattern tests/ and the config pattern .yaml. -/
theorem classify_tests_beat_specs_config_witness :
    testMatch (pyLower "tests/config/app.yaml") = true ∧
    specConfigMatch (pyLower "tests/config/app.yaml") = true ∧
    (classify "tests/config/app.yaml" 4 1).contribution_type =
      ContributionType.TESTS :=
  ⟨by decide, by decide,
   (classify_tests_beat_specs_config "tests/config/app.yaml" 4 1
     (by decide) (by decide)).1⟩

/-- C4: classify is pure, deterministic and total — it is a Lean function, so
it never fails and equal inputs give equal results; its category always lies
in the fixed seven-value enumeration; and a path with an unmapped extension
matching no pattern yields OTHER with no language. -/
theorem classify_total_deterministic (p : String) (a r : Nat) :
    ((classify p a r).contribution_type ∈
      [ContributionType.PRODUCTION_CODE, ContributionType.TESTS,
       ContributionType.DOCUMENTATION, ContributionType.SPECS_CONFIG,
       ContributionType.INFRASTRUCTURE, ContributionType.STYLING,
       ContributionType.OTHER]) ∧
    (∀ p2 a2 r2, p = p2 → a = a2 → r = r2 → classify p a r = classify p2 a2 r2) ∧
    (languageOf p = none →
      testMatch (pyLower p) = false →
      docMatch (extOf p) (pyLower p) = false →
      infraMatch (pyLower p) = false →
      specConfigMatch (pyLower p) = false →
      styleMatch (pyLower p) = false →
      (classify p a r).contribution_type = ContributionType.OTHER ∧
      (classify p a r).language = none) := by
  refine ⟨?_, ?_, ?_⟩
  · cases h : (classify p a r).contribution_type <;> simp
  · intro p2 a2 r2 h1 h2 h3
    rw [h1, h2, h3]
  · intro hl ht hd hi hs hy
    have hl2 : List.lookup (extOf p) LANGUAGE_MAP = none := hl
    unfold classify
    dsimp only
    simp [ht, hd, hi, hs, hy, hl2]

/-- Witness for C4 at the concrete path zzz, which has no extension and
matches no pattern. -/
theorem classify_total_deterministic_witness :
    languageOf "zzz" = none ∧
    (classify "zzz" 1 2).contribution_type = ContributionType.OTHER ∧
    (classify "zzz" 1 2).language = none :=
  ⟨by decide,
   (classify_total_deterministic "zzz" 1 2).2.2 (by decide) (by decide)
     (by decide) (by decide) (by decide) (by decide)⟩

/-- C8: repository analysis fails gracefully: when the path has no .git
folder, or when the git log subprocess fails or times out, analyze_repo
returns None and leaves the analyzer's repository collection unchanged. -/
theorem analyze_repo_fails_gracefully (env : RepoEnv) (pd : String → PyDT)
    (name path : String) (repos : List RepoStats)
    (h : env.has_git_dir = false ∨ env.log_success = false) :
    analyze_repo env pd name path repos = (none, repos) := by
  unfold analyze_repo
  rcases h with h | h
  · simp [h]
  · by_cases hg : env.has_git_dir = false <;> simp [hg, h]

/-- Witness for C8: a failing git log invocation on an otherwise valid
repository adds nothing to a non-empty collection. -/
theorem analyze_repo_fails_gracefully_witness :
    analyze_repo ⟨true, "d", ["Python"], false, "junk"⟩ pdZero "r" "/r"
      [demoRepo] = (none, [demoRepo]) :=
  analyze_repo_fails_gracefully ⟨true, "d", ["Python"], false, "junk"⟩ pdZero
    "r" "/r" [demoRepo] (Or.inr rfl)

/-! ### Fold lemmas shared by the aggregation claims -/

theorem foldl_add_map {α : Type} (f : α → Nat) (l : List α) (n : Nat) :
    l.foldl (fun acc c => acc + f c) n = n + (l.map f).sum := by
  induction l generalizing n with
  | nil => simp
  | cons c cs ih => simp [ih]; omega

theorem sumVals_bump {α : Type} [DecidableEq α] (m : List (α × Nat)) (k : α)
    (v : Nat) : sumVals (bump m k v) = sumVals m + v := by
  induction m with
  | nil => simp [bump, sumVals]
  | cons kv rest ih =>
    by_cases h : kv.1 = k <;> simp [bump, h, sumVals] at ih ⊢ <;> omega

theorem toList_delta (o : Option CommitInfo) :
    (o.toList.map commitDelta).sum = curDelta o := by
  cases o <;> simp [curDelta]

theorem sum_map_added_removed (l : List CommitInfo) :
    (l.map (fun c => c.lines_added)).sum + (l.map (fun c => c.lines_removed)).sum
      = (l.map commitDelta).sum := by
  induction l with
  | nil => simp
  | cons c cs ih => simp [commitDelta]; omega

theorem statStep_inv (st : ParseState) (l : List Char)
    (h1 : sumVals st.ctypes = (st.commits.map commitDelta).sum + curDelta st.current)
    (h2 : sumVals st.langs ≤ (st.commits.map commitDelta).sum + curDelta st.current) :
    sumVals (statStep st l).ctypes =
      ((statStep st l).commits.map commitDelta).sum + curDelta (statStep st l).current ∧
    sumVals (statStep st l).langs ≤
      ((statStep st l).commits.map commitDelta).sum + curDelta (statStep st l).current := by
  unfold statStep
  split
  case _ a rm p c hp hc =>
    dsimp only
    constructor
    · rw [sumVals_bump]
      simp only [hc, curDelta, commitDelta] at h1 ⊢
      omega
    · simp only [hc, curDelta, commitDelta] at h2 ⊢
      split
      · rw [sumVals_bump]
        omega
      · omega
  case _ => exact ⟨h1, h2⟩

theorem step_inv (pd : String → PyDT) (st : ParseState) (raw : String)
    (h1 : sumVals st.ctypes = (st.commits.map commitDelta).sum + curDelta st.current)
    (h2 : sumVals st.langs ≤ (st.commits.map commitDelta).sum + curDelta st.current) :
    sumVals (step pd st raw).ctypes =
      ((step pd st raw).commits.map commitDelta).sum + curDelta (step pd st raw).current ∧
    sumVals (step pd st raw).langs ≤
      ((step pd st raw).commits.map commitDelta).sum + curDelta (step pd st raw).current := by
  unfold step
  dsimp only
  split
  · exact ⟨h1, h2⟩
  split
  · split
    · dsimp only
      constructor
      · rw [h1]
        simp [toList_delta, curDelta, commitDelta, mkCommit]
      · refine le_trans h2 ?_
        simp [toList_delta, curDelta, commitDelta, mkCommit]
    · exact statStep_inv st _ h1 h2
  · exact statStep_inv st _ h1 h2

theorem foldl_step_inv (pd : String → PyDT) (lines : List String)
    (st : ParseState)
    (h1 : sumVals st.ctypes = (st.commits.map commitDelta).sum + curDelta st.current)
    (h2 : sumVals st.langs ≤ (st.commits.map commitDelta).sum + curDelta st.current) :
    sumVals (lines.foldl (step pd) st).ctypes =
      ((lines.foldl (step pd) st).commits.map commitDelta).sum +
        curDelta (lines.foldl (step pd) st).current ∧
    sumVals (lines.foldl (step pd) st).langs ≤
      ((lines.foldl (step pd) st).commits.map commitDelta).sum +
        curDelta (lines.foldl (step pd) st).current := by
  induction lines generalizing st with
  | nil => exact ⟨h1, h2⟩
  | cons ln rest ih =>
    have h := step_inv pd st ln h1 h2
    exact ih (step pd st ln) h.1 h.2

theorem parseOutput_inv (pd : String → PyDT) (out : String) :
    sumVals (parseOutput pd out).ctypes =
      ((parseOutput pd out).commits.map commitDelta).sum ∧
    sumVals (parseOutput pd out).langs ≤
      ((parseOutput pd out).commits.map commitDelta).sum := by
  unfold parseOutput
  dsimp only
  have h := foldl_step_inv pd (out.splitOn "\n") initParseState
    (by simp [initParseState, sumVals, curDelta])
    (by simp [initParseState, sumVals, curDelta])
  constructor
  · rw [h.1.symm.symm]
    simp [toList_delta, h.1]
  · refine le_trans h.2 ?_
    simp [toList_delta]

/-- C6: in every analyzed repository, total_lines_added equals the sum of
lines_added over its commit records, and likewise for total_lines_removed
and total_files_changed (analyzer.py lines 254-266). -/
theorem repo_totals_eq_commit_sums (name path : String) (pd : String → PyDT)
    (out : String) :
    (buildStats name path pd out).total_lines_added =
      ((buildStats name path pd out).commits.map (fun c => c.lines_added)).sum ∧
    (buildStats name path pd out).total_lines_removed =
      ((buildStats name path pd out).commits.map (fun c => c.lines_removed)).sum ∧
    (buildStats name path pd out).total_files_changed =
      ((buildStats name path pd out).commits.map (fun c => c.files_changed)).sum := by
  unfold buildStats
  dsimp only
  refine ⟨?_, ?_, ?_⟩ <;> simp [foldl_add_map]

/-- C9: for every successfully parsed repository, the values of the
contribution_types dict sum to total_lines_added + total_lines_removed, and
the values of the languages dict sum to at most that total (a language entry
is only accumulated when the classification carries a language). -/
theorem repo_dict_sums (name path : String) (pd : String → PyDT)
    (out : String) :
    sumVals (buildStats name path pd out).contribution_types =
      (buildStats name path pd out).total_lines_added +
        (buildStats name path pd out).total_lines_removed ∧
    sumVals (buildStats name path pd out).languages ≤
      (buildStats name path pd out).total_lines_added +
        (buildStats name path pd out).total_lines_removed := by
  have h := parseOutput_inv pd out
  unfold buildStats
  dsimp only
  constructor
  · rw [h.1]
    simp [foldl_add_map, sum_map_added_removed]
  · refine le_trans h.2 ?_
    simp [foldl_add_map, sum_map_added_removed]

/-! ### Period membership (C7) -/

theorem summaryStep_fold_commits (start e : PyDT) (nm : String)
    (cs : List CommitInfo) :
    ∀ acc : ActivitySummary × List String,
      ((cs.foldl (summaryStep start e nm) acc).1).commits =
        acc.1.commits + cs.countP (fun c => inPeriod start e c.date) := by
  induction cs with
  | nil => intro acc; simp
  | cons c cs ih =>
    intro acc
    simp only [List.foldl_cons, List.countP_cons]
    rw [ih]
    unfold summaryStep
    by_cases h : inPeriod start e c.date = true <;>
      (simp only [h, if_true, if_false, Bool.false_eq_true]; omega)

theorem summary_outer_commits (start e : PyDT) (rs : List RepoStats) :
    ∀ acc : ActivitySummary × List String,
      ((rs.foldl (fun acc r => r.commits.foldl (summaryStep start e r.name) acc)
        acc).1).commits =
        acc.1.commits +
          (rs.map (fun r => r.commits.countP (fun c => inPeriod start e c.date))).sum := by
  induction rs with
  | nil => intro acc; simp
  | cons r rs ih =>
    intro acc
    simp only [List.foldl_cons, List.map_cons, List.sum_cons]
    rw [ih, summaryStep_fold_commits]
    omega

/-- C7: period membership is boundary-inclusive.  The activity summary counts
exactly the commits whose (timezone-normalized) timestamp t satisfies
start ≤ t ≤ end on the instant timeline; in particular a commit timestamped
exactly at period_start or exactly at period_end is counted. -/
theorem period_membership_boundary_inclusive (start e : PyDT) (label : String)
    (repos : List RepoStats) :
    ((get_activity_summary start e label repos).commits =
      (repos.map (fun r => r.commits.countP (fun c => inPeriod start e c.date))).sum) ∧
    (∀ c : PyDT, inPeriod start e c = true ↔
      (start.instant ≤ (normTz c start.tz).instant ∧
       (normTz c start.tz).instant ≤ e.instant)) ∧
    (∀ c : PyDT, (normTz c start.tz).instant = start.instant →
      start.instant ≤ e.instant → inPeriod start e c = true) ∧
    (∀ c : PyDT, (normTz c start.tz).instant = e.instant →
      start.instant ≤ e.instant → inPeriod start e c = true) := by
  refine ⟨?_, ?_, ?_, ?_⟩
  · unfold get_activity_summary
    dsimp only
    rw [summary_outer_commits]
    simp [initSummary]
  · intro c
    simp [inPeriod]
  · intro c hc hse
    simp only [inPeriod, Bool.and_eq_true, decide_eq_true_eq]
    omega
  · intro c hc hse
    simp only [inPeriod, Bool.and_eq_true, decide_eq_true_eq]
    omega

/-- Witness for C7: a naive commit timestamp equal to the period start, and
one equal to the period end, are both counted. -/
theorem period_membership_boundary_inclusive_witness :
    inPeriod ⟨0, some 0⟩ ⟨5, some 0⟩ ⟨0, none⟩ = true ∧
    inPeriod ⟨0, some 0⟩ ⟨5, some 0⟩ ⟨5, none⟩ = true :=
  ⟨(period_membership_boundary_inclusive ⟨0, some 0⟩ ⟨5, some 0⟩ "" []).2.2.1
     ⟨0, none⟩ (by decide) (by decide),
   (period_membership_boundary_inclusive ⟨0, some 0⟩ ⟨5, some 0⟩ "" []).2.2.2
     ⟨5, none⟩ (by decide) (by decide)⟩

/-! ### Contribution percentages (C5) -/

theorem mem_bump_keys {α : Type} [DecidableEq α] (m : List (α × Nat)) (k x : α)
    (v : Nat) (h : x ∈ (bump m k v).map Prod.fst) :
    x ∈ m.map Prod.fst ∨ x = k := by
  induction m with
  | nil =>
    simp [bump] at h
    right
    exact h
  | cons kv rest ih =>
    by_cases hk : kv.1 = k
    · simp only [bump, hk, if_true, List.map_cons, List.mem_cons] at h ⊢
      tauto
    · simp only [bump, hk, if_false, List.map_cons, List.mem_cons] at h ⊢
      rcases h with h | h
      · tauto
      · rcases ih h with h2 | h2 <;> tauto

theorem bump_keys_nodup {α : Type} [DecidableEq α] (m : List (α × Nat)) (k : α)
    (v : Nat) (h : (m.map Prod.fst).Nodup) :
    ((bump m k v).map Prod.fst).Nodup := by
  induction m with
  | nil => simp [bump]
  | cons kv rest ih =>
    simp only [List.map_cons, List.nodup_cons] at h
    by_cases hk : kv.1 = k
    · simpa [bump, hk, List.nodup_cons] using h
    · simp only [bump, hk, if_false, List.map_cons, List.nodup_cons]
      refine ⟨fun hmem => ?_, ih h.2⟩
      rcases mem_bump_keys rest k kv.1 v hmem with h2 | h2
      · exact h.1 h2
      · exact hk h2

theorem foldBump_keys_nodup {α : Type} [DecidableEq α]
    (entries : List (α × Nat)) :
    ∀ m : List (α × Nat), (m.map Prod.fst).Nodup →
      (((entries.foldl (fun m kv => bump m kv.1 kv.2) m)).map Prod.fst).Nodup := by
  induction entries with
  | nil => intro m h; exact h
  | cons kv rest ih =>
    intro m h
    exact ih (bump m kv.1 kv.2) (bump_keys_nodup m kv.1 kv.2 h)

theorem mergeCT_keys_nodup (repos : List RepoStats) :
    ((mergeCT repos).map Prod.fst).Nodup := by
  unfold mergeCT
  suffices h : ∀ m : List (ContributionType × Nat), (m.map Prod.fst).Nodup →
      ((repos.foldl
        (fun m r => r.contribution_types.foldl (fun m kv => bump m kv.1 kv.2) m)
        m).map Prod.fst).Nodup by
    exact h [] (by simp)
  induction repos with
  | nil => intro m h; exact h
  | cons r rest ih =>
    intro m h
    exact ih _ (foldBump_keys_nodup r.contribution_types m h)

theorem mergeCT_length_le_seven (repos : List RepoStats) :
    (mergeCT repos).length ≤ 7 := by
  have h := mergeCT_keys_nodup repos
  have h1 : (mergeCT repos).length = ((mergeCT repos).map Prod.fst).length :=
    (List.length_map _ _).symm
  have h2 : ((mergeCT repos).map Prod.fst).length =
      ((mergeCT repos).map Prod.fst).toFinset.card :=
    (List.toFinset_card_of_nodup h).symm
  have h3 : ((mergeCT repos).map Prod.fst).toFinset.card ≤
      Fintype.card ContributionType := Finset.card_le_univ _
  have h4 : Fintype.card ContributionType = 7 := by decide
  omega

theorem abs_roundTenths_sub (q : Rat) : |roundTenths q - q| ≤ 1 / 20 := by
  unfold roundTenths
  have h := abs_sub_round (10 * q)
  have he : (round (10 * q) : Rat) / 10 - q = ((round (10 * q) : Rat) - 10 * q) / 10 := by
    ring
  rw [abs_sub_comm] at h
  rw [he, abs_div]
  have h10 : |(10 : Rat)| = 10 := by norm_num
  rw [h10]
  calc |(round (10 * q) : Rat) - 10 * q| / 10 ≤ (1 / 2) / 10 := by
        gcongr
    _ = 1 / 20 := by norm_num

theorem sum_roundTenths_bound (l : List Rat) :
    |(l.map roundTenths).sum - l.sum| ≤ l.length * (1 / 20) := by
  induction l with
  | nil => simp
  | cons q qs ih =>
    simp only [List.map_cons, List.sum_cons, List.length_cons]
    have h1 := abs_roundTenths_sub q
    have he : roundTenths q + (qs.map roundTenths).sum - (q + qs.sum) =
        (roundTenths q - q) + ((qs.map roundTenths).sum - qs.sum) := by ring
    calc |roundTenths q + (qs.map roundTenths).sum - (q + qs.sum)|
        ≤ |roundTenths q - q| + |(qs.map roundTenths).sum - qs.sum| := by
          rw [he]; exact abs_add _ _
      _ ≤ 1 / 20 + qs.length * (1 / 20) := add_le_add h1 ih
      _ = (qs.length + 1) * (1 / 20) := by ring
      _ = ((qs.length + 1 : Nat) : Rat) * (1 / 20) := by push_cast; ring

theorem sum_div_mul_hundred {α : Type} (L : List (α × Nat)) (t : Rat) :
    (L.map (fun kv => (kv.2 : Rat) / t * 100)).sum =
      ((L.map (fun kv => (kv.2 : Rat))).sum) / t * 100 := by
  induction L with
  | nil => simp
  | cons kv rest ih =>
    simp only [List.map_cons, List.sum_cons, ih]
    ring

theorem cast_sumVals {α : Type} (L : List (α × Nat)) :
    ((sumVals L : Nat) : Rat) = (L.map (fun kv => (kv.2 : Rat))).sum := by
  induction L with
  | nil => simp [sumVals]
  | cons kv rest ih =>
    simp only [sumVals, List.map_cons, List.sum_cons] at ih ⊢
    rw [Nat.cast_add, ih]

/-- C5: in the cross-repository aggregate, with a positive classified-lines
total every contribution percentage is count / total * 100 rounded to one
decimal (floats modelled as exact rationals) and the percentages sum to 100
within the accumulated rounding error (at most 0.05 per category, seven
categories, hence 0.35); with a zero total the mapping is empty. -/
theorem total_stats_percentages (repos : List RepoStats) :
    (sumVals (get_total_stats repos).contribution_types = 0 →
      (get_total_stats repos).contribution_percentages = []) ∧
    (0 < sumVals (get_total_stats repos).contribution_types →
      (get_total_stats repos).contribution_percentages =
        (get_total_stats repos).contribution_types.map
          (fun kv => (kv.1, roundTenths ((kv.2 : Rat) /
            ((sumVals (get_total_stats repos).contribution_types : Nat) : Rat) * 100))) ∧
      |(((get_total_stats repos).contribution_percentages.map
          (fun kv => kv.2)).sum) - 100| ≤ 7 / 20) := by
  have hct : (get_total_stats repos).contribution_types = mergeCT repos := rfl
  have hcp : (get_total_stats repos).contribution_percentages =
      (if 0 < sumVals (mergeCT repos) then
        (mergeCT repos).map
          (fun kv => (kv.1, roundTenths ((kv.2 : Rat) /
            ((sumVals (mergeCT repos) : Nat) : Rat) * 100)))
      else []) := rfl
  constructor
  · intro h0
    rw [hct] at h0
    rw [hcp]
    simp [h0]
  · intro hpos
    rw [hct] at hpos
    constructor
    · rw [hcp, hct]
      simp [hpos]
    · rw [hcp]
      simp only [hpos, if_true, List.map_map]
      have hcomp : ((fun kv : ContributionType × Rat => kv.2) ∘
          (fun kv : ContributionType × Nat => (kv.1, roundTenths ((kv.2 : Rat) /
            ((sumVals (mergeCT repos) : Nat) : Rat) * 100)))) =
          (roundTenths ∘ (fun kv : ContributionType × Nat => (kv.2 : Rat) /
            ((sumVals (mergeCT repos) : Nat) : Rat) * 100)) := rfl
      rw [hcomp, ← List.map_map]
      have hsum : ((mergeCT repos).map
          (fun kv : ContributionType × Nat => (kv.2 : Rat) /
            ((sumVals (mergeCT repos) : Nat) : Rat) * 100)).sum = 100 := by
        rw [sum_div_mul_hundred, ← cast_sumVals]
        have hne : ((sumVals (mergeCT repos) : Nat) : Rat) ≠ 0 := by
          exact_mod_cast hpos.ne'
        field_simp
      have hb := sum_roundTenths_bound ((mergeCT repos).map
        (fun kv : ContributionType × Nat => (kv.2 : Rat) /
          ((sumVals (mergeCT repos) : Nat) : Rat) * 100))
      rw [hsum, List.length_map] at hb
      have hlen : ((mergeCT repos).length : Rat) ≤ 7 := by
        exact_mod_cast mergeCT_length_le_seven repos
      calc |((((mergeCT repos).map
            (fun kv : ContributionType × Nat => (kv.2 : Rat) /
              ((sumVals (mergeCT repos) : Nat) : Rat) * 100)).map
            roundTenths).sum) - 100| ≤ (mergeCT repos).length * (1 / 20) := hb
        _ ≤ 7 * (1 / 20) := by
            exact mul_le_mul_of_nonneg_right hlen (by norm_num)
        _ = 7 / 20 := by norm_num

/-- Witness for C5 on the end-to-end scenario repository: total 18 classified
lines, percentages 55.6 / 27.8 / 16.7 summing to 100.1. -/
theorem total_stats_percentages_witness :
    0 < sumVals (get_total_stats [demoRepoCT]).contribution_types ∧
    |(((get_total_stats [demoRepoCT]).contribution_percentages.map
        (fun kv => kv.2)).sum) - 100| ≤ 7 / 20 :=
  ⟨by decide, ((total_stats_percentages [demoRepoCT]).2 (by decide)).2⟩

/-! ### Commit-header versus numstat dispatch (C1) -/

theorem breakPipe_eq_none (l : List Char) :
    breakPipe l = none ↔ l.count '|' = 0 := by
  induction l with
  | nil => simp [breakPipe]
  | cons c cs ih =>
    unfold breakPipe
    by_cases hc : c = '|'
    · subst hc
      simp [List.count_cons]
    · cases hb : breakPipe cs with
      | none =>
        have h0 : cs.count '|' = 0 := ih.mp hb
        simp [hc, List.count_cons, h0]
      | some p =>
        have h1 : cs.count '|' ≠ 0 := fun h => by
          rw [← ih] at h
          rw [h] at hb
          exact absurd hb (by simp)
        simp [hc, List.count_cons, h1]

theorem breakPipe_some_count (l : List Char) :
    ∀ a b : List Char, breakPipe l = some (a, b) →
      l.count '|' = b.count '|' + 1 := by
  induction l with
  | nil =>
    intro a b h
    simp [breakPipe] at h
  | cons c cs ih =>
    intro a b h
    unfold breakPipe at h
    by_cases hc : c = '|'
    · rw [if_pos hc] at h
      obtain ⟨rfl, rfl⟩ := Prod.mk.inj (Option.some.inj h)
      simp [List.count_cons, hc]
    · rw [if_neg hc] at h
      cases hb : breakPipe cs with
      | none => rw [hb] at h; exact absurd h (by simp)
      | some p =>
        obtain ⟨a2, b2⟩ := p
        rw [hb] at h
        obtain ⟨rfl, rfl⟩ := Prod.mk.inj (Option.some.inj h)
        have := ih a2 b2 hb
        simp [List.count_cons, hc, this]

theorem splitPipe_length (n : Nat) :
    ∀ l : List Char, (splitPipe n l).length = min (l.count '|') n + 1 := by
  induction n with
  | zero => intro l; simp [splitPipe]
  | succ n ih =>
    intro l
    unfold splitPipe
    cases hb : breakPipe l with
    | none =>
      have h0 := (breakPipe_eq_none l).mp hb
      simp [h0]
    | some p =>
      obtain ⟨a, b⟩ := p
      have hcount := breakPipe_some_count l a b hb
      simp only [List.length_cons, ih b]
      omega

theorem statStep_no_stat (st : ParseState) (l : List Char)
    (h : parseNumstat l = none) : statStep st l = st := by
  unfold statStep
  split
  · next hp _ => rw [h] at hp; exact absurd hp (by simp)
  · rfl

theorem statStep_no_current (st : ParseState) (l : List Char)
    (h : st.current = none) : statStep st l = st := by
  unfold statStep
  split
  · next hc => rw [h] at hc; exact absurd hc (by simp)
  · rfl

theorem statStep_attach (st : ParseState) (l : List Char) (a rm : Nat)
    (p : List Char) (c : CommitInfo)
    (hp : parseNumstat l = some (a, rm, p)) (hc : st.current = some c) :
    statStep st l =
      { st with
        current := some
          { c with
            file_classifications :=
              c.file_classifications ++ [classify ⟨p⟩ a rm]
            lines_added := c.lines_added + a
            lines_removed := c.lines_removed + rm
            files_changed := c.files_changed + 1 }
        langs :=
          match (classify ⟨p⟩ a rm).language with
          | some lg => bump st.langs lg (a + rm)
          | none => st.langs
        ctypes := bump st.ctypes (classify ⟨p⟩ a rm).contribution_type (a + rm) } := by
  unfold statStep
  split
  · next a2 rm2 p2 c2 hp2 hc2 =>
    rw [hp] at hp2
    rw [hc] at hc2
    obtain ⟨rfl, rfl, rfl⟩ : a2 = a ∧ rm2 = rm ∧ p2 = p := by
      injection hp2 with h2; simp_all
    obtain rfl : c2 = c := by
      injection hc2 with h2
      exact h2.symm
    rfl
  · next hno => exact (hno a rm p c hp hc).elim

/-- C1 amended: for every input line (after stripping): a blank line is
discarded; a line containing at least four delimiter characters is consumed
as a commit header (closing any open commit), REGARDLESS of whether it also
matches the numeric-stat shape; otherwise a line matching the numeric-stat
shape with a commit open is attached to that commit as a file change;
otherwise the line is discarded. -/
theorem parse_line_dispatch (pd : String → PyDT) (st : ParseState)
    (raw : String) :
    ((pyStrip raw).data = [] → step pd st raw = st) ∧
    (4 ≤ (pyStrip raw).data.count '|' →
      step pd st raw =
        { st with
          commits := st.commits ++ st.current.toList
          current := some (mkCommit pd (splitPipe 4 (pyStrip raw).data)) }) ∧
    ((pyStrip raw).data ≠ [] → (pyStrip raw).data.count '|' < 4 →
      ∀ (a rm : Nat) (p : List Char) (c : CommitInfo),
        parseNumstat (pyStrip raw).data = some (a, rm, p) →
        st.current = some c →
        step pd st raw =
          { st with
            current := some
              { c with
                file_classifications :=
                  c.file_classifications ++ [classify ⟨p⟩ a rm]
                lines_added := c.lines_added + a
                lines_removed := c.lines_removed + rm
                files_changed := c.files_changed + 1 }
            langs :=
              match (classify ⟨p⟩ a rm).language with
              | some lg => bump st.langs lg (a + rm)
              | none => st.langs
            ctypes :=
              bump st.ctypes (classify ⟨p⟩ a rm).contribution_type (a + rm) }) ∧
    ((pyStrip raw).data ≠ [] → (pyStrip raw).data.count '|' < 4 →
      (parseNumstat (pyStrip raw).data = none ∨ st.current = none) →
      step pd st raw = st) := by
  refine ⟨?_, ?_, ?_, ?_⟩
  · intro h
    unfold step
    dsimp only
    rw [if_pos h]
  · intro h4
    have hmem : '|' ∈ (pyStrip raw).data := List.count_pos_iff.mp (by omega)
    have hne : ¬((pyStrip raw).data = []) := List.ne_nil_of_mem hmem
    have hlen : (splitPipe 4 (pyStrip raw).data).length = 5 := by
      rw [splitPipe_length]
      omega
    unfold step
    dsimp only
    rw [if_neg hne, if_pos ⟨hmem, h4⟩, if_pos hlen]
  · intro hne hlt a rm p c hp hc
    unfold step
    dsimp only
    rw [if_neg hne, if_neg (fun hcond => absurd hcond.2 (by omega))]
    exact statStep_attach st _ a rm p c hp hc
  · intro hne hlt hdisj
    unfold step
    dsimp only
    rw [if_neg hne, if_neg (fun hcond => absurd hcond.2 (by omega))]
    rcases hdisj with h | h
    · exact statStep_no_stat st _ h
    · exact statStep_no_current st _ h

/-- Witness for C1 amended: a well-formed header line is consumed as a header
(closing the open commit), and a numstat line with a pipe-free path is
attached to the open commit. -/
theorem parse_line_dispatch_witness :
    (step pdZero demoOpenState "h1|A|a@x|d|m").commits = [demoOpenCommit] ∧
    ((step pdZero demoOpenState "1\t2\tsrc/app.py").current.map
      (fun c => c.files_changed)) = some 1 :=
  ⟨by
    rw [(parse_line_dispatch pdZero demoOpenState "h1|A|a@x|d|m").2.1 (by decide)]
    decide,
   by
    rw [(parse_line_dispatch pdZero demoOpenState "1\t2\tsrc/app.py").2.2.1
      (by decide) (by decide) 1 2 "src/app.py".data demoOpenCommit
      (by decide) rfl]
    decide⟩

/-- Counterexample for C1 as stated: the line consisting of the numeric-stat
fields 1, 2 and path a|b|c|d|e matches the numeric-stat shape, yet with a
commit open it is consumed as a commit header: the open commit is closed
with zero file changes and a garbage header commit with hash 1 TAB 2 TAB a
is opened, instead of the line being attached as a file change. -/
theorem parse_line_dispatch_counterexample :
    (parseNumstat (pyStrip "1\t2\ta|b|c|d|e").data).isSome = true ∧
    (step pdZero demoOpenState "1\t2\ta|b|c|d|e").commits = [demoOpenCommit] ∧
    demoOpenCommit.files_changed = 0 ∧
    ((step pdZero demoOpenState "1\t2\ta|b|c|d|e").current.map
      (fun c => c.hash)) = some "1\t2\ta" := by
  refine ⟨by decide, ?_, by decide, ?_⟩ <;> decide

/-! ### Rolling daily and weekly buckets (C2) -/

theorem mem_sinsert_self (s : List String) (n : String) : n ∈ sinsert s n := by
  unfold sinsert
  split
  · assumption
  · exact List.mem_cons_self n s

theorem sinsert_idem (s : List String) (n : String) :
    sinsert (sinsert s n) n = sinsert s n := by
  by_cases h : n ∈ s
  · simp [sinsert, h]
  · simp [sinsert, h]

theorem sinsert_nodup (s : List String) (n : String) (h : s.Nodup) :
    (sinsert s n).Nodup := by
  unfold sinsert
  split
  · exact h
  · next hn => exact List.nodup_cons.mpr ⟨hn, h⟩

theorem sinsert_toFinset (s : List String) (n : String) :
    (sinsert s n).toFinset = insert n s.toFinset := by
  unfold sinsert
  split
  · next h => exact (Finset.insert_eq_self.mpr (List.mem_toFinset.mpr h)).symm
  · simp

theorem dayStep_fold (start e : PyDT) (cs : List CommitInfo) :
    ∀ s : ActivitySummary,
      cs.foldl (dayStep start e) s =
        { s with
          commits := s.commits + cs.countP (fun c => inPeriod start e c.date)
          lines_added := s.lines_added +
            ((cs.filter (fun c => inPeriod start e c.date)).map
              (fun c => c.lines_added)).sum
          lines_removed := s.lines_removed +
            ((cs.filter (fun c => inPeriod start e c.date)).map
              (fun c => c.lines_removed)).sum } := by
  induction cs with
  | nil =>
    intro s
    simp only [List.foldl_nil, List.countP_nil, List.filter_nil, List.map_nil,
      List.sum_nil, Nat.add_zero]
  | cons c cs ih =>
    intro s
    obtain ⟨ps, pe, pl, cm, la, lr, fc, ra, cb, lb⟩ := s
    simp only [List.foldl_cons]
    rw [ih]
    unfold dayStep
    by_cases h : inPeriod start e c.date = true
    · simp [h, List.countP_cons, List.filter_cons]
      omega
    · simp [h, List.countP_cons, List.filter_cons]

theorem dayBucket_outer (start e : PyDT) (rs : List RepoStats) :
    ∀ s : ActivitySummary,
      rs.foldl (fun s r => r.commits.foldl (dayStep start e) s) s =
        { s with
          commits := s.commits + (rs.map
            (fun r => r.commits.countP (fun c => inPeriod start e c.date))).sum
          lines_added := s.lines_added + (rs.map
            (fun r => ((r.commits.filter (fun c => inPeriod start e c.date)).map
              (fun c => c.lines_added)).sum)).sum
          lines_removed := s.lines_removed + (rs.map
            (fun r => ((r.commits.filter (fun c => inPeriod start e c.date)).map
              (fun c => c.lines_removed)).sum)).sum } := by
  induction rs with
  | nil =>
    intro s
    simp only [List.foldl_nil, List.map_nil, List.sum_nil, Nat.add_zero]
  | cons r rs ih =>
    intro s
    obtain ⟨ps, pe, pl, cm, la, lr, fc, ra, cb, lb⟩ := s
    simp only [List.foldl_cons]
    rw [dayStep_fold, ih]
    simp only [List.map_cons, List.sum_cons]
    simp
    constructor <;> omega

theorem dayBucket_fields (start e : PyDT) (label : String)
    (repos : List RepoStats) :
    (dayBucket start e label repos).period_start = start ∧
    (dayBucket start e label repos).period_end = e ∧
    (dayBucket start e label repos).commits = (repos.map
      (fun r => r.commits.countP (fun c => inPeriod start e c.date))).sum ∧
    (dayBucket start e label repos).lines_added = (repos.map
      (fun r => ((r.commits.filter (fun c => inPeriod start e c.date)).map
        (fun c => c.lines_added)).sum)).sum ∧
    (dayBucket start e label repos).lines_removed = (repos.map
      (fun r => ((r.commits.filter (fun c => inPeriod start e c.date)).map
        (fun c => c.lines_removed)).sum)).sum ∧
    (dayBucket start e label repos).files_changed = 0 ∧
    (dayBucket start e label repos).repos_active = 0 := by
  unfold dayBucket
  rw [dayBucket_outer]
  simp [initSummary]

theorem weekStep_apply (start e : PyDT) (nm : String) (s : ActivitySummary)
    (act : List String) (c : CommitInfo) :
    weekStep start e nm (s, act) c =
      if inPeriod start e c.date then
        ({ s with
           commits := s.commits + 1
           lines_added := s.lines_added + c.lines_added
           lines_removed := s.lines_removed + c.lines_removed
           files_changed := s.files_changed + c.files_changed },
         sinsert act nm)
      else (s, act) := rfl

theorem weekStep_fold (start e : PyDT) (nm : String) (cs : List CommitInfo) :
    ∀ (s : ActivitySummary) (act : List String),
      cs.foldl (weekStep start e nm) (s, act) =
        ({ s with
           commits := s.commits + cs.countP (fun c => inPeriod start e c.date)
           lines_added := s.lines_added +
             ((cs.filter (fun c => inPeriod start e c.date)).map
               (fun c => c.lines_added)).sum
           lines_removed := s.lines_removed +
             ((cs.filter (fun c => inPeriod start e c.date)).map
               (fun c => c.lines_removed)).sum
           files_changed := s.files_changed +
             ((cs.filter (fun c => inPeriod start e c.date)).map
               (fun c => c.files_changed)).sum },
         if cs.any (fun c => inPeriod start e c.date) then sinsert act nm
         else act) := by
  induction cs with
  | nil =>
    intro s act
    simp only [List.foldl_nil, List.countP_nil, List.filter_nil, List.map_nil,
      List.sum_nil, Nat.add_zero, List.any_nil, Bool.false_eq_true, if_false]
  | cons c cs ih =>
    intro s act
    rw [List.foldl_cons, weekStep_apply]
    by_cases h : inPeriod start e c.date = true
    · rw [if_pos h, ih]
      obtain ⟨ps, pe, pl, cm, la, lr, fc, ra, cb, lb⟩ := s
      by_cases h2 : cs.any (fun c => inPeriod start e c.date) = true <;>
        simp [h, h2, List.countP_cons, List.filter_cons, sinsert_idem] <;>
        omega
    · rw [if_neg h, ih]
      simp [h, List.countP_cons, List.filter_cons]

theorem weekBucket_outer (start e : PyDT) (rs : List RepoStats) :
    ∀ (s : ActivitySummary) (act : List String),
      rs.foldl (fun acc r => r.commits.foldl (weekStep start e r.name) acc)
        (s, act) =
        ({ s with
           commits := s.commits + (rs.map
             (fun r => r.commits.countP (fun c => inPeriod start e c.date))).sum
           lines_added := s.lines_added + (rs.map
             (fun r => ((r.commits.filter (fun c => inPeriod start e c.date)).map
               (fun c => c.lines_added)).sum)).sum
           lines_removed := s.lines_removed + (rs.map
             (fun r => ((r.commits.filter (fun c => inPeriod start e c.date)).map
               (fun c => c.lines_removed)).sum)).sum
           files_changed := s.files_changed + (rs.map
             (fun r => ((r.commits.filter (fun c => inPeriod start e c.date)).map
               (fun c => c.files_changed)).sum)).sum },
         rs.foldl (fun a r =>
           if r.commits.any (fun c => inPeriod start e c.date) then
             sinsert a r.name
           else a) act) := by
  induction rs with
  | nil =>
    intro s act
    simp only [List.foldl_nil, List.map_nil, List.sum_nil, Nat.add_zero]
  | cons r rs ih =>
    intro s act
    simp only [List.foldl_cons]
    rw [weekStep_fold, ih]
    obtain ⟨ps, pe, pl, cm, la, lr, fc, ra, cb, lb⟩ := s
    simp only [List.map_cons, List.sum_cons]
    by_cases hr : r.commits.any (fun c => inPeriod start e c.date) = true <;>
      simp [hr] <;> constructor <;> omega

theorem actFold_spec (start e : PyDT) (rs : List RepoStats) :
    ∀ a : List String, a.Nodup →
      (rs.foldl (fun a r =>
        if r.commits.any (fun c => inPeriod start e c.date) then
          sinsert a r.name
        else a) a).Nodup ∧
      (rs.foldl (fun a r =>
        if r.commits.any (fun c => inPeriod start e c.date) then
          sinsert a r.name
        else a) a).toFinset =
        a.toFinset ∪
          ((rs.filter (fun r => r.commits.any (fun c => inPeriod start e c.date))).map
            (fun r => r.name)).toFinset := by
  induction rs with
  | nil =>
    intro a h
    simp [h]
  | cons r rs ih =>
    intro a h
    simp only [List.foldl_cons, List.filter_cons]
    by_cases hr : r.commits.any (fun c => inPeriod start e c.date) = true
    · simp only [hr, if_true, List.map_cons, List.toFinset_cons]
      have hrec := ih (sinsert a r.name) (sinsert_nodup a r.name h)
      refine ⟨hrec.1, ?_⟩
      rw [hrec.2, sinsert_toFinset, Finset.insert_union, Finset.union_insert]
    · simp only [hr, Bool.false_eq_true, if_false]
      exact ih a h

theorem weekBucket_fields (start e : PyDT) (label : String)
    (repos : List RepoStats) :
    (weekBucket start e label repos).period_start = start ∧
    (weekBucket start e label repos).period_end = e ∧
    (weekBucket start e label repos).commits = (repos.map
      (fun r => r.commits.countP (fun c => inPeriod start e c.date))).sum ∧
    (weekBucket start e label repos).lines_added = (repos.map
      (fun r => ((r.commits.filter (fun c => inPeriod start e c.date)).map
        (fun c => c.lines_added)).sum)).sum ∧
    (weekBucket start e label repos).lines_removed = (repos.map
      (fun r => ((r.commits.filter (fun c => inPeriod start e c.date)).map
        (fun c => c.lines_removed)).sum)).sum ∧
    (weekBucket start e label repos).files_changed = (repos.map
      (fun r => ((r.commits.filter (fun c => inPeriod start e c.date)).map
        (fun c => c.files_changed)).sum)).sum ∧
    (weekBucket start e label repos).repos_active =
      (((repos.filter (fun r =>
          r.commits.any (fun c => inPeriod start e c.date))).map
        (fun r => r.name)).toFinset).card := by
  unfold weekBucket
  rw [weekBucket_outer]
  have hact := actFold_spec start e repos [] (by simp)
  dsimp only
  refine ⟨rfl, rfl, by simp [initSummary], by simp [initSummary],
    by simp [initSummary], by simp [initSummary], ?_⟩
  rw [← List.toFinset_card_of_nodup hact.1, hact.2]
  simp

theorem getElem_range_map {β : Type} (f : Nat → β) (N i : Nat) (b : β)
    (h : ((List.range N).map f)[i]? = some b) : i < N ∧ b = f i := by
  rw [List.getElem?_map] at h
  by_cases hi : i < N
  · rw [List.getElem?_range hi] at h
    simp at h
    exact ⟨hi, h.symm⟩
  · rw [List.getElem?_eq_none (by simpa using Nat.le_of_not_lt hi)] at h
    simp at h

theorem emod_sub_mul (v k D : Int) : (v - k * D).emod D = v.emod D := by
  have h2 : (v + -k * D) % D = v % D := Int.add_mul_emod_self
  have h3 : v - k * D = v + -k * D := by ring
  rw [h3]
  exact h2

/-- C2 amended: get_daily_activity(N) yields N non-overlapping daily buckets,
most recent first; each daily bucket reports, for exactly the commits whose
normalized timestamps fall in that bucket, ONLY the commit count and the
line deltas, while its file count and its distinct-active-repository count
are left at zero.  get_weekly_activity(N) yields N non-overlapping weekly
buckets, most recent first, each reporting commit count, line deltas, file
count and the count of distinct repositories with at least one qualifying
commit. -/
theorem rolling_buckets_amended (fmtD fmtW : PyDT → String) (now : PyDT)
    (repos : List RepoStats) (N M : Nat) :
    ((get_daily_activity fmtD now repos N).length = N) ∧
    (∀ (i : Nat) (b : ActivitySummary),
      (get_daily_activity fmtD now repos N)[i]? = some b →
      b.period_start = dayStart ⟨now.value - i * usPerDay, now.tz⟩ ∧
      b.period_end = (⟨(dayStart ⟨now.value - i * usPerDay, now.tz⟩).value +
        (usPerDay - 1), now.tz⟩ : PyDT) ∧
      b.commits = (repos.map (fun r => r.commits.countP
        (fun c => inPeriod b.period_start b.period_end c.date))).sum ∧
      b.lines_added = (repos.map (fun r => ((r.commits.filter
        (fun c => inPeriod b.period_start b.period_end c.date)).map
        (fun c => c.lines_added)).sum)).sum ∧
      b.lines_removed = (repos.map (fun r => ((r.commits.filter
        (fun c => inPeriod b.period_start b.period_end c.date)).map
        (fun c => c.lines_removed)).sum)).sum ∧
      b.files_changed = 0 ∧
      b.repos_active = 0) ∧
    (∀ (i j : Nat) (bi bj : ActivitySummary), i < j →
      (get_daily_activity fmtD now repos N)[i]? = some bi →
      (get_daily_activity fmtD now repos N)[j]? = some bj →
      bj.period_end.instant < bi.period_start.instant ∧
      bj.period_start.instant < bi.period_start.instant) ∧
    ((get_weekly_activity fmtW now repos M).length = M) ∧
    (∀ (i : Nat) (b : ActivitySummary),
      (get_weekly_activity fmtW now repos M)[i]? = some b →
      b.period_start = dayStart
        ⟨now.value - (now.weekday + 7 * i) * usPerDay, now.tz⟩ ∧
      b.period_end = (⟨(dayStart
        ⟨now.value - (now.weekday + 7 * i) * usPerDay, now.tz⟩).value +
        604799000000, now.tz⟩ : PyDT) ∧
      b.commits = (repos.map (fun r => r.commits.countP
        (fun c => inPeriod b.period_start b.period_end c.date))).sum ∧
      b.lines_added = (repos.map (fun r => ((r.commits.filter
        (fun c => inPeriod b.period_start b.period_end c.date)).map
        (fun c => c.lines_added)).sum)).sum ∧
      b.lines_removed = (repos.map (fun r => ((r.commits.filter
        (fun c => inPeriod b.period_start b.period_end c.date)).map
        (fun c => c.lines_removed)).sum)).sum ∧
      b.files_changed = (repos.map (fun r => ((r.commits.filter
        (fun c => inPeriod b.period_start b.period_end c.date)).map
        (fun c => c.files_changed)).sum)).sum ∧
      b.repos_active = (((repos.filter (fun r => r.commits.any
        (fun c => inPeriod b.period_start b.period_end c.date))).map
        (fun r => r.name)).toFinset).card) ∧
    (∀ (i j : Nat) (bi bj : ActivitySummary), i < j →
      (get_weekly_activity fmtW now repos M)[i]? = some bi →
      (get_weekly_activity fmtW now repos M)[j]? = some bj →
      bj.period_end.instant < bi.period_start.instant ∧
      bj.period_start.instant < bi.period_start.instant) := by
  refine ⟨?_, ?_, ?_, ?_, ?_, ?_⟩
  · simp [get_daily_activity]
  · intro i b h
    unfold get_daily_activity at h
    obtain ⟨hi, rfl⟩ := getElem_range_map _ _ _ _ h
    dsimp only
    have h1 := dayBucket_fields (dayStart ⟨now.value - i * usPerDay, now.tz⟩)
      ⟨(dayStart ⟨now.value - i * usPerDay, now.tz⟩).value + (usPerDay - 1),
        (dayStart ⟨now.value - i * usPerDay, now.tz⟩).tz⟩
      (fmtD ⟨now.value - i * usPerDay, now.tz⟩) repos
    obtain ⟨hps, hpe, hcm, hla, hlr, hfc, hra⟩ := h1
    refine ⟨hps, by exact hpe, ?_, ?_, ?_, hfc, hra⟩ <;>
      rw [hps, hpe] <;> assumption
  · intro i j bi bj hij hbi hbj
    unfold get_daily_activity at hbi hbj
    obtain ⟨hiN, rfl⟩ := getElem_range_map _ _ _ _ hbi
    obtain ⟨hjN, rfl⟩ := getElem_range_map _ _ _ _ hbj
    dsimp only
    have h1 := dayBucket_fields (dayStart ⟨now.value - i * usPerDay, now.tz⟩)
      ⟨(dayStart ⟨now.value - i * usPerDay, now.tz⟩).value + (usPerDay - 1),
        (dayStart ⟨now.value - i * usPerDay, now.tz⟩).tz⟩
      (fmtD ⟨now.value - i * usPerDay, now.tz⟩) repos
    have h2 := dayBucket_fields (dayStart ⟨now.value - j * usPerDay, now.tz⟩)
      ⟨(dayStart ⟨now.value - j * usPerDay, now.tz⟩).value + (usPerDay - 1),
        (dayStart ⟨now.value - j * usPerDay, now.tz⟩).tz⟩
      (fmtD ⟨now.value - j * usPerDay, now.tz⟩) repos
    rw [h1.1, h2.1, h2.2.1]
    simp only [dayStart, PyDT.instant, usPerDay]
    rw [emod_sub_mul, emod_sub_mul]
    constructor <;> omega
  · simp [get_weekly_activity]
  · intro i b h
    unfold get_weekly_activity at h
    obtain ⟨hi, rfl⟩ := getElem_range_map _ _ _ _ h
    dsimp only
    have h1 := weekBucket_fields
      (dayStart ⟨now.value - (now.weekday + 7 * i) * usPerDay, now.tz⟩)
      ⟨(dayStart ⟨now.value - (now.weekday + 7 * i) * usPerDay, now.tz⟩).value +
        604799000000,
        (dayStart ⟨now.value - (now.weekday + 7 * i) * usPerDay, now.tz⟩).tz⟩
      (fmtW (dayStart ⟨now.value - (now.weekday + 7 * i) * usPerDay, now.tz⟩))
      repos
    obtain ⟨hps, hpe, hcm, hla, hlr, hfc, hra⟩ := h1
    refine ⟨hps, by exact hpe, ?_, ?_, ?_, ?_, ?_⟩ <;>
      rw [hps, hpe] <;> assumption
  · intro i j bi bj hij hbi hbj
    unfold get_weekly_activity at hbi hbj
    obtain ⟨hiN, rfl⟩ := getElem_range_map _ _ _ _ hbi
    obtain ⟨hjN, rfl⟩ := getElem_range_map _ _ _ _ hbj
    dsimp only
    have h1 := weekBucket_fields
      (dayStart ⟨now.value - (now.weekday + 7 * i) * usPerDay, now.tz⟩)
      ⟨(dayStart ⟨now.value - (now.weekday + 7 * i) * usPerDay, now.tz⟩).value +
        604799000000,
        (dayStart ⟨now.value - (now.weekday + 7 * i) * usPerDay, now.tz⟩).tz⟩
      (fmtW (dayStart ⟨now.value - (now.weekday + 7 * i) * usPerDay, now.tz⟩))
      repos
    have h2 := weekBucket_fields
      (dayStart ⟨now.value - (now.weekday + 7 * j) * usPerDay, now.tz⟩)
      ⟨(dayStart ⟨now.value - (now.weekday + 7 * j) * usPerDay, now.tz⟩).value +
        604799000000,
        (dayStart ⟨now.value - (now.weekday + 7 * j) * usPerDay, now.tz⟩).tz⟩
      (fmtW (dayStart ⟨now.value - (now.weekday + 7 * j) * usPerDay, now.tz⟩))
      repos
    rw [h1.1, h2.1, h2.2.1]
    simp only [dayStart, PyDT.instant, usPerDay]
    rw [emod_sub_mul, emod_sub_mul]
    constructor <;> omega

/-- Witness for C2 amended: on the concrete one-commit repository, the first
daily bucket leaves the file count and active-repository count at zero, and
the first weekly bucket reports one distinct active repository. -/
theorem rolling_buckets_amended_witness :
    demoBucket.files_changed = 0 ∧ demoBucket.repos_active = 0 ∧
    demoWeekBucket.repos_active = 1 := by
  have hd := (rolling_buckets_amended (fun _ => "") (fun _ => "") demoNow
    [demoRepo] 1 1).2.1 0 demoBucket (by decide)
  have hw := (rolling_buckets_amended (fun _ => "") (fun _ => "") demoNow
    [demoRepo] 1 1).2.2.2.2.1 0 demoWeekBucket (by decide)
  refine ⟨hd.2.2.2.2.2.1, hd.2.2.2.2.2.2, ?_⟩
  rw [hw.2.2.2.2.2.2]
  decide

/-- Counterexample for C2 as stated: the daily bucket containing demoCommit
(3 files changed, in the single repository demoRepo) reports one commit but
a file count of 0 and an active-repository count of 0, where the claim
requires 3 and 1. -/
theorem rolling_buckets_counterexample :
    ((get_daily_activity (fun _ => "") demoNow [demoRepo] 1).map
      (fun b => (b.commits, b.files_changed, b.repos_active))) = [(1, 0, 0)] ∧
    demoRepo.commits = [demoCommit] ∧
    demoCommit.files_changed = 3 := by
  refine ⟨?_, by decide, by decide⟩
  decide

end Dashboard
